import Mathlib

/-!
Verification of the HydroSense prediction pipeline (app.py).

The file embeds the logic of the prediction branch of app.py:
the feature encoder (lines 102-108), the per-pollutant metric cards
(lines 119-147), the chart data frame and its conditional bar labels
(lines 151-197), and the low-visibility detector with its disclaimer
(lines 206-220).  Rational numbers stand for the Python floats, and a
data frame row is an ordered association list from column name to value.
-/

namespace HydroSense

/-- Lines 59: the fixed pollutant enumeration. -/
def pollutants : List String := ["O2", "NO3", "NO2", "SO4", "PO4", "CL"]

/-- Lines 60-67: the safe-limit dictionary. -/
def safe_limits : List (String × ℚ) :=
  [("O2", 5), ("NO3", 10), ("NO2", 0.1), ("SO4", 250), ("PO4", 0.1), ("CL", 250)]

/-- Lines 102-103: the single-row frame after
pd.get_dummies(input_df, columns=[id]): a year column holding the input
year and one dummy indicator column named id_ followed by the station id,
holding 1. -/
def dummied (year : Int) (station_id : String) : List (String × Int) :=
  [("year", year), ("id_" ++ station_id, 1)]

/-- Lines 105-107: the loop that appends, for every model column not yet
present in the row, that column with value 0.  Columns already present are
left untouched. -/
def addMissing : List (String × Int) → List String → List (String × Int)
  | row, [] => row
  | row, c :: cs =>
    if c ∈ row.map Prod.fst then addMissing row cs
    else addMissing (row ++ [(c, 0)]) cs

/-- Line 108: input_encoded[model_cols] - reindex/select the row into
exactly the model-column order.  After addMissing every model column is
present, so the lookup always succeeds and the default 0 is never used. -/
def reindex (row : List (String × Int)) (model_cols : List String) : List (String × Int) :=
  model_cols.map (fun c => (c, (row.lookup c).getD 0))

/-- Lines 102-108 composed: the feature encoder. -/
def encode (year : Int) (station_id : String) (model_cols : List String) :
    List (String × Int) :=
  reindex (addMissing (dummied year station_id) model_cols) model_cols

/-- A station-indicator column is one produced by the get_dummies naming
convention: the fixed prefix id_ followed by some station id. -/
def isIndicator (c : String) : Bool := "id_".data.isPrefixOf c.data

/-- The direction of the deviation indicator on a metric card:
a down arrow, an up arrow, or no arrow at all (the N/A branch). -/
inductive Direction
  | under
  | over
  | neutral
deriving DecidableEq

/-- One rendered metric card (lines 119-147): pollutant code, predicted
value, the displayed absolute percent deviation (none when N/A), and the
arrow direction. -/
structure MetricCard where
  pollutant : String
  value : ℚ
  percent : Option ℚ
  direction : Direction
deriving DecidableEq

/-- Lines 121-134: one iteration of the metric loop.  safe_limit is the
dictionary entry for p (every p fed to the loop comes from pollutants, so
the lookup succeeds and the getD default is unreachable).  If the limit is
zero the card shows N/A with no arrow; otherwise delta is the signed
percent deviation, the card shows its absolute value with a down arrow
when delta is negative and an up arrow otherwise. -/
def mkCard (limits : List (String × ℚ)) (p : String) (v : ℚ) : MetricCard :=
  let safe_limit := (limits.lookup p).getD 0
  if safe_limit = 0 then
    { pollutant := p, value := v, percent := none, direction := Direction.neutral }
  else
    let delta := ((v - safe_limit) / safe_limit) * 100
    { pollutant := p, value := v, percent := some |delta|,
      direction := if delta < 0 then Direction.under else Direction.over }

/-- Line 119: the metric loop runs over zip(pollutants, predicted), so it
produces one card per zipped pair. -/
def compare (preds : List ℚ) : List MetricCard :=
  (pollutants.zip preds).map (fun pv => mkCard safe_limits pv.1 pv.2)

/-- Lines 151-158: chart_df holds the Pollutant, Predicted and Safe Limit
columns; melt with id_vars Pollutant stacks the value columns one after
the other, so the long frame is the Predicted block (pollutant order)
followed by the Safe Limit block (pollutant order).  Each row is
(Pollutant, Type, Value). -/
def chart_rows (preds : List ℚ) : List (String × String × ℚ) :=
  (pollutants.zip preds).map (fun pv => (pv.1, "Predicted", pv.2)) ++
    pollutants.map (fun p => (p, "Safe Limit", (safe_limits.lookup p).getD 0))

/-- Lines 151-155: the pd.DataFrame constructor requires all column arrays
to share one length; Pollutant has 6 entries, so a prediction row of any
other width raises ValueError and the chart is never built. -/
def chart_df (preds : List ℚ) : Except String (List (String × String × ℚ)) :=
  if preds.length = pollutants.length then Except.ok (chart_rows preds)
  else Except.error "ValueError: all arrays must be of the same length"

/-- Line 180: the fixed label threshold. -/
def label_threshold : ℚ := 10

/-- One bar of the final chart: its grouping keys, its height, and the
numeric label printed above it (none when no label is printed). -/
structure Bar where
  pollutant : String
  type : String
  value : ℚ
  label : Option ℚ
deriving DecidableEq

/-- Lines 181-197: the text layer puts a label above a bar exactly when
the condition datum.Value >= label_threshold holds; otherwise the empty
text, i.e. no label. -/
def render_bars (rows : List (String × String × ℚ)) : List Bar :=
  rows.map (fun r =>
    { pollutant := r.1, type := r.2.1, value := r.2.2,
      label := if r.2.2 ≥ label_threshold then some r.2.2 else none })

/-- Lines 151-199: the chart build, which fails when the data-frame
constructor fails. -/
def build_chart (preds : List ℚ) : Except String (List Bar) :=
  (chart_df preds).map render_bars

/-- What one prediction request renders, in program order: the metric
cards (lines 119-147) are emitted first, then the chart is attempted
(lines 151-199).  An Except.error chart means the request died there,
after the cards were already shown. -/
structure RequestRender where
  cards : List MetricCard
  chart : Except String (List Bar)

/-- Lines 110-199: the rendering pipeline for one predict click, given the
single row returned by model.predict. -/
def run_request (preds : List ℚ) : RequestRender :=
  { cards := compare preds, chart := build_chart preds }

/-- Lines 206-209: a pollutant is collected when both its predicted value
and its safe limit are below label_threshold.  The source zips pollutants,
predictions and the limit list; looking the limit up by pollutant yields
the same pairs. -/
def detect_low_visibility (preds : List ℚ) : List String :=
  ((pollutants.zip preds).filter
    (fun pv =>
      decide (pv.2 < label_threshold ∧
        (safe_limits.lookup pv.1).getD 0 < label_threshold))).map Prod.fst

/-- Lines 211-220: the disclaimer is rendered only when the collected list
is non-empty, and it lists exactly the collected pollutants. -/
def disclaimer (preds : List ℚ) : Option (List String) :=
  if detect_low_visibility preds = [] then none
  else some (detect_low_visibility preds)

/-! ### Helper lemmas about association-list lookup and the encoder -/

lemma lookup_append_left {l₁ l₂ : List (String × Int)} {c : String}
    (h : c ∈ l₁.map Prod.fst) : (l₁ ++ l₂).lookup c = l₁.lookup c := by
  induction l₁ with
  | nil => simp at h
  | cons e es ih =>
    obtain ⟨k, v⟩ := e
    by_cases hck : c = k
    · subst hck
      simp [List.lookup]
    · have hb : (c == k) = false := beq_eq_false_iff_ne.mpr hck
      have hmem : c ∈ es.map Prod.fst := by simpa [hck] using h
      simp [List.lookup, hb, ih hmem]

lemma lookup_append_right {l₁ l₂ : List (String × Int)} {c : String}
    (h : c ∉ l₁.map Prod.fst) : (l₁ ++ l₂).lookup c = l₂.lookup c := by
  induction l₁ with
  | nil => simp
  | cons e es ih =>
    obtain ⟨k, v⟩ := e
    have hck : c ≠ k := by
      intro hq
      exact h (by simp [hq])
    have hb : (c == k) = false := beq_eq_false_iff_ne.mpr hck
    have hmem : c ∉ es.map Prod.fst := fun hq => h (by simp [hq])
    simp [List.lookup, hb, ih hmem]

lemma addMissing_lookup_of_mem (cols : List String) (row : List (String × Int))
    {c : String} (h : c ∈ row.map Prod.fst) :
    (addMissing row cols).lookup c = row.lookup c := by
  induction cols generalizing row with
  | nil => rfl
  | cons c' cs ih =>
    by_cases h' : c' ∈ row.map Prod.fst
    · simp only [addMissing, if_pos h']
      exact ih row h
    · simp only [addMissing, if_neg h']
      have h2 : c ∈ (row ++ [(c', 0)]).map Prod.fst := by simp [h]
      rw [ih _ h2, lookup_append_left h]

lemma addMissing_lookup_of_not_mem (cols : List String) (row : List (String × Int))
    {c : String} (h : c ∉ row.map Prod.fst) (hc : c ∈ cols) :
    (addMissing row cols).lookup c = some 0 := by
  induction cols generalizing row with
  | nil => simp at hc
  | cons c' cs ih =>
    by_cases hcc : c = c'
    · subst hcc
      simp only [addMissing, if_neg h]
      have h2 : c ∈ (row ++ [(c, 0)]).map Prod.fst := by simp
      rw [addMissing_lookup_of_mem cs _ h2, lookup_append_right h]
      simp [List.lookup]
    · have hcs : c ∈ cs := by
        rcases List.mem_cons.mp hc with h1 | h1
        · exact absurd h1 hcc
        · exact h1
      by_cases h' : c' ∈ row.map Prod.fst
      · simp only [addMissing, if_pos h']
        exact ih row h hcs
      · simp only [addMissing, if_neg h']
        have h2 : c ∉ (row ++ [(c', 0)]).map Prod.fst := by simp [h, hcc]
        exact ih _ h2 hcs

lemma id_col_ne_year (s : String) : "id_" ++ s ≠ "year" := by
  intro h
  have h2 : ("id_" ++ s).data = "year".data := by rw [h]
  simp [String.data_append] at h2

/-- Pointwise description of the encoder: each expected column receives the
year for the year column, 1 for the indicator column of the selected
station, and 0 otherwise. -/
lemma encode_eq (y : Int) (s : String) (cols : List String) :
    encode y s cols =
      cols.map (fun c =>
        (c, if c = "year" then y else if c = "id_" ++ s then 1 else 0)) := by
  unfold encode reindex
  apply List.map_congr_left
  intro c hc
  by_cases h1 : c = "year"
  · subst h1
    have hmem : "year" ∈ (dummied y s).map Prod.fst := by simp [dummied]
    rw [addMissing_lookup_of_mem cols _ hmem]
    simp [dummied, List.lookup]
  · by_cases h2 : c = "id_" ++ s
    · subst h2
      have hmem : ("id_" ++ s) ∈ (dummied y s).map Prod.fst := by simp [dummied]
      rw [addMissing_lookup_of_mem cols _ hmem]
      have hb : (("id_" ++ s) == "year") = false :=
        beq_eq_false_iff_ne.mpr (id_col_ne_year s)
      simp [dummied, List.lookup, hb, if_neg (id_col_ne_year s)]
    · have hmem : c ∉ (dummied y s).map Prod.fst := by
        simp [dummied, h1, h2]
      rw [addMissing_lookup_of_not_mem cols _ hmem hc]
      simp [h1, h2]

lemma isIndicator_id_col (s : String) : isIndicator ("id_" ++ s) = true := by
  simp [isIndicator, String.data_append, List.isPrefixOf]

lemma isIndicator_year : isIndicator "year" = false := by decide

/-- Claim C1: for every year, station id and duplicate-free expected-column
schema containing the year column and the indicator column of the station,
encode returns a row whose keys are exactly the schema in order, whose year
entry is the input year, in which the indicator column of the selected
station holds 1, every other indicator column holds 0, and exactly one
entry is an indicator column holding 1. -/
theorem encode_known_station (y : Int) (s : String) (cols : List String)
    (hnd : cols.Nodup) (hyear : "year" ∈ cols) (hsid : ("id_" ++ s) ∈ cols) :
    (encode y s cols).map Prod.fst = cols ∧
    ("year", y) ∈ encode y s cols ∧
    (∀ e ∈ encode y s cols, e.1 = "year" → e.2 = y) ∧
    ("id_" ++ s, (1 : Int)) ∈ encode y s cols ∧
    (∀ e ∈ encode y s cols, isIndicator e.1 = true → e.1 ≠ "id_" ++ s → e.2 = 0) ∧
    (encode y s cols).countP (fun e => isIndicator e.1 && (e.2 == 1)) = 1 := by
  rw [encode_eq]
  refine ⟨?_, ?_, ?_, ?_, ?_, ?_⟩
  · rw [List.map_map]
    exact (List.map_congr_left (fun a _ => rfl)).trans (List.map_id cols)
  · exact List.mem_map.mpr ⟨"year", hyear, by simp⟩
  · intro e he h1
    rcases List.mem_map.mp he with ⟨c, hc, rfl⟩
    simp only at h1
    simp [h1]
  · exact List.mem_map.mpr ⟨"id_" ++ s, hsid, by simp [if_neg (id_col_ne_year s)]⟩
  · intro e he hind hne
    rcases List.mem_map.mp he with ⟨c, hc, rfl⟩
    simp only at hind hne ⊢
    have hcy : c ≠ "year" := by
      intro h
      rw [h, isIndicator_year] at hind
      exact Bool.noConfusion hind
    simp [hcy, hne]
  · rw [List.countP_map]
    have hpt : ∀ c ∈ cols,
        (((fun e : String × Int => isIndicator e.1 && (e.2 == 1)) ∘
          (fun c => (c, if c = "year" then y else if c = "id_" ++ s then 1 else 0))) c = true ↔
          (c == "id_" ++ s) = true) := by
      intro c _
      by_cases h1 : c = "year"
      · subst h1
        have hb : ("year" == "id_" ++ s) = false :=
          beq_eq_false_iff_ne.mpr (Ne.symm (id_col_ne_year s))
        simp [isIndicator_year, hb]
      · by_cases h2 : c = "id_" ++ s
        · subst h2
          simp [if_neg (id_col_ne_year s), isIndicator_id_col]
        · have hb : (c == "id_" ++ s) = false := beq_eq_false_iff_ne.mpr h2
          simp [h1, h2, hb]
    calc (cols.countP _)
        = cols.countP (fun c => c == "id_" ++ s) := List.countP_congr hpt
      _ = cols.count ("id_" ++ s) := rfl
      _ = 1 := List.count_eq_one_of_mem hnd hsid

/-- Claim C1 witness: the theorem applied at year 2022, station 5 and the
schema [year, id_1, id_5]. -/
theorem encode_known_station_witness :
    (encode 2022 "5" ["year", "id_1", "id_5"]).map Prod.fst = ["year", "id_1", "id_5"] ∧
    ("year", (2022 : Int)) ∈ encode 2022 "5" ["year", "id_1", "id_5"] ∧
    (∀ e ∈ encode 2022 "5" ["year", "id_1", "id_5"], e.1 = "year" → e.2 = 2022) ∧
    ("id_" ++ "5", (1 : Int)) ∈ encode 2022 "5" ["year", "id_1", "id_5"] ∧
    (∀ e ∈ encode 2022 "5" ["year", "id_1", "id_5"],
      isIndicator e.1 = true → e.1 ≠ "id_" ++ "5" → e.2 = 0) ∧
    (encode 2022 "5" ["year", "id_1", "id_5"]).countP
      (fun e => isIndicator e.1 && (e.2 == 1)) = 1 :=
  encode_known_station 2022 "5" ["year", "id_1", "id_5"]
    (by decide) (by decide) (by decide)

/-- Claim C2: for every year, station id and schema in which the indicator
column of the station does not occur, encode still returns a row whose keys
are exactly the schema in order, whose year entry is the input year, and in
which every indicator column holds 0.  encode is a total function, so no
exception is possible. -/
theorem encode_unknown_station (y : Int) (s : String) (cols : List String)
    (hsid : ("id_" ++ s) ∉ cols) :
    (encode y s cols).map Prod.fst = cols ∧
    (∀ e ∈ encode y s cols, e.1 = "year" → e.2 = y) ∧
    (∀ e ∈ encode y s cols, isIndicator e.1 = true → e.2 = 0) := by
  rw [encode_eq]
  refine ⟨by rw [List.map_map]; exact (List.map_congr_left (fun a _ => rfl)).trans (List.map_id cols), ?_, ?_⟩
  · intro e he h1
    rcases List.mem_map.mp he with ⟨c, hc, rfl⟩
    simp only at h1
    simp [h1]
  · intro e he hind
    rcases List.mem_map.mp he with ⟨c, hc, rfl⟩
    simp only at hind ⊢
    have hcy : c ≠ "year" := by
      intro h
      rw [h, isIndicator_year] at hind
      exact Bool.noConfusion hind
    have hcs : c ≠ "id_" ++ s := by
      intro h
      rw [h] at hc
      exact hsid hc
    simp [hcy, hcs]

/-- Claim C2 witness: the theorem applied at year 2022 and unknown station
99 against the schema [year, id_1]. -/
theorem encode_unknown_station_witness :
    (encode 2022 "99" ["year", "id_1"]).map Prod.fst = ["year", "id_1"] ∧
    (∀ e ∈ encode 2022 "99" ["year", "id_1"], e.1 = "year" → e.2 = 2022) ∧
    (∀ e ∈ encode 2022 "99" ["year", "id_1"], isIndicator e.1 = true → e.2 = 0) :=
  encode_unknown_station 2022 "99" ["year", "id_1"] (by decide)

lemma map_fst_zip_eq_take {α β : Type} (l : List α) :
    ∀ r : List β, (l.zip r).map Prod.fst = l.take r.length := by
  induction l with
  | nil => intro r; simp
  | cons a l ih =>
    intro r
    cases r with
    | nil => simp
    | cons b r => simp [ih r]

lemma mkCard_pollutant (limits : List (String × ℚ)) (p : String) (v : ℚ) :
    (mkCard limits p v).pollutant = p := by
  simp only [mkCard]
  split <;> rfl

/-- Claim C3 counterexample: a model output row of width 5 still renders 5
of the 6 pollutant cards - the metric loop zips and truncates - so
per-pollutant results ARE rendered, and partially. -/
theorem run_request_partial_render_cex :
    ([(1 : ℚ), 2, 3, 4, 5].length ≠ 6) ∧
    (run_request [1, 2, 3, 4, 5]).cards.length = 5 ∧
    (run_request [1, 2, 3, 4, 5]).cards ≠ [] := by
  have h5 : (run_request [1, 2, 3, 4, 5]).cards.length = 5 := by
    simp [run_request, compare, pollutants]
  refine ⟨by decide, h5, ?_⟩
  intro h
  rw [h] at h5
  simp at h5

/-- Claim C3 (amended): when the model output row has width other than 6
the request does fail fatally - the chart data-frame constructor rejects
the mismatched column lengths - but only after the metric loop has already
rendered min(6, width) pollutant cards, a partial set whenever width is
below 6. -/
theorem run_request_width_mismatch (preds : List ℚ) (h : preds.length ≠ 6) :
    (∃ msg, (run_request preds).chart = Except.error msg) ∧
    (run_request preds).cards.length = min 6 preds.length := by
  constructor
  · refine ⟨"ValueError: all arrays must be of the same length", ?_⟩
    simp [run_request, build_chart, chart_df, pollutants, h, Except.map]
  · simp [run_request, compare, pollutants]

/-- Claim C3 witness: the amended theorem applied at the width-5 output
row. -/
theorem run_request_width_mismatch_witness :
    (∃ msg, (run_request [1, 2, 3, 4, 5]).chart = Except.error msg) ∧
    (run_request [(1 : ℚ), 2, 3, 4, 5]).cards.length = min 6 [(1 : ℚ), 2, 3, 4, 5].length :=
  run_request_width_mismatch [1, 2, 3, 4, 5] (by decide)

/-- Claim C4 counterexample: an empty prediction sequence produces zero
compare entries, not 6. -/
theorem compare_empty_cex : compare [] = [] ∧ (compare []).length ≠ 6 :=
  ⟨rfl, by decide⟩

/-- Claim C4 (amended): compare produces min(6, n) entries for an n-element
prediction sequence - exactly 6 only when n is at least 6 - and the entries
follow the corresponding prefix of the fixed pollutant enumeration,
independently of the predicted values (never reordered by value). -/
theorem compare_length_order (preds : List ℚ) :
    (compare preds).length = min 6 preds.length ∧
    (compare preds).map MetricCard.pollutant = pollutants.take preds.length := by
  constructor
  · simp [compare, pollutants]
  · rw [compare, List.map_map]
    exact (List.map_congr_left (fun a _ => mkCard_pollutant _ _ _)).trans
      (map_fst_zip_eq_take pollutants preds)

lemma limit_pos_of_mem (p : String) (hp : p ∈ pollutants) :
    ∃ L : ℚ, safe_limits.lookup p = some L ∧ 0 < L := by
  simp only [pollutants, List.mem_cons, List.not_mem_nil, or_false] at hp
  rcases hp with rfl | rfl | rfl | rfl | rfl | rfl
  · exact ⟨5, rfl, by norm_num⟩
  · exact ⟨10, rfl, by norm_num⟩
  · exact ⟨0.1, rfl, by norm_num⟩
  · exact ⟨250, rfl, by norm_num⟩
  · exact ⟨0.1, rfl, by norm_num⟩
  · exact ⟨250, rfl, by norm_num⟩

lemma mkCard_pos_limit (limits : List (String × ℚ)) (p : String) (v L : ℚ)
    (hl : limits.lookup p = some L) (hL : 0 < L) :
    (mkCard limits p v).percent = some (|v - L| / L * 100) ∧
    ((mkCard limits p v).direction = Direction.under ↔ v - L < 0) ∧
    ((mkCard limits p v).direction = Direction.over ↔ 0 ≤ v - L) := by
  have hne : L ≠ 0 := ne_of_gt hL
  have hkey : ((v - L) / L * 100 < 0) ↔ (v - L < 0) := by
    constructor
    · intro h
      by_contra hge
      push_neg at hge
      have h2 : 0 ≤ (v - L) / L := div_nonneg hge (le_of_lt hL)
      nlinarith
    · intro h
      have hdiv : (v - L) / L < 0 := div_neg_of_neg_of_pos h hL
      nlinarith
  have habs : |(v - L) / L * 100| = |v - L| / L * 100 := by
    rw [abs_mul, abs_div, abs_of_pos hL]
    norm_num
  have hcard : mkCard limits p v =
      { pollutant := p, value := v, percent := some |(v - L) / L * 100|,
        direction :=
          if (v - L) / L * 100 < 0 then Direction.under else Direction.over } := by
    simp only [mkCard, hl, Option.getD_some, if_neg hne]
  rw [hcard]
  refine ⟨by rw [habs], ?_, ?_⟩
  · constructor
    · intro h
      by_contra hnot
      rw [if_neg (fun hq => hnot (hkey.mp hq))] at h
      exact Direction.noConfusion h
    · intro h
      rw [if_pos (hkey.mpr h)]
  · constructor
    · intro h
      by_contra hnot
      push_neg at hnot
      rw [if_pos (hkey.mpr hnot)] at h
      exact Direction.noConfusion h
    · intro h
      rw [if_neg (fun hq => absurd (hkey.mp hq) (not_lt.mpr h))]

/-- Claim C5: for every pollutant of the enumeration with limit L (always
nonzero in the table) the card shows percent deviation |v - L| / L * 100,
with the down arrow exactly when v - L is negative and the up arrow exactly
when v - L is non-negative; in particular O2 predicted 4 against limit 5
gives the down arrow at 20 percent and NO2 predicted 0.15 against limit 0.1
gives the up arrow at 50 percent. -/
theorem compare_deviation (p : String) (hp : p ∈ pollutants) (v : ℚ) :
    (mkCard safe_limits p v).percent =
      some (|v - (safe_limits.lookup p).getD 0| / (safe_limits.lookup p).getD 0 * 100) ∧
    ((mkCard safe_limits p v).direction = Direction.under ↔
      v - (safe_limits.lookup p).getD 0 < 0) ∧
    ((mkCard safe_limits p v).direction = Direction.over ↔
      0 ≤ v - (safe_limits.lookup p).getD 0) ∧
    (mkCard safe_limits "O2" 4).direction = Direction.under ∧
    (mkCard safe_limits "O2" 4).percent = some 20 ∧
    (mkCard safe_limits "NO2" 0.15).direction = Direction.over ∧
    (mkCard safe_limits "NO2" 0.15).percent = some 50 := by
  obtain ⟨L, hl, hpos⟩ := limit_pos_of_mem p hp
  have hmain := mkCard_pos_limit safe_limits p v L hl hpos
  have hO2 := mkCard_pos_limit safe_limits "O2" 4 5 rfl (by norm_num)
  have hNO2 := mkCard_pos_limit safe_limits "NO2" 0.15 0.1 rfl (by norm_num)
  rw [hl]
  simp only [Option.getD_some]
  refine ⟨hmain.1, hmain.2.1, hmain.2.2, ?_, ?_, ?_, ?_⟩
  · exact (hO2.2.1).mpr (by norm_num)
  · rw [hO2.1]
    norm_num
  · exact (hNO2.2.2).mpr (by norm_num)
  · rw [hNO2.1]
    norm_num [abs_of_nonneg]

/-- Claim C5 witness: the theorem applied at pollutant O2 and predicted
value 4. -/
theorem compare_deviation_witness :
    (mkCard safe_limits "O2" 4).percent =
      some (|(4 : ℚ) - (safe_limits.lookup "O2").getD 0| /
        (safe_limits.lookup "O2").getD 0 * 100) ∧
    ((mkCard safe_limits "O2" 4).direction = Direction.under ↔
      (4 : ℚ) - (safe_limits.lookup "O2").getD 0 < 0) ∧
    ((mkCard safe_limits "O2" 4).direction = Direction.over ↔
      0 ≤ (4 : ℚ) - (safe_limits.lookup "O2").getD 0) ∧
    (mkCard safe_limits "O2" 4).direction = Direction.under ∧
    (mkCard safe_limits "O2" 4).percent = some 20 ∧
    (mkCard safe_limits "NO2" 0.15).direction = Direction.over ∧
    (mkCard safe_limits "NO2" 0.15).percent = some 50 :=
  compare_deviation "O2" (by decide) 4

/-- Claim C6: whenever the limit table maps a pollutant to 0, its card is
the not-applicable one - no percent figure, neutral direction - produced by
the guard branch without any division; mkCard is a total function, so no
division fault is possible for any predicted value. -/
theorem compare_zero_limit (limits : List (String × ℚ)) (p : String) (v : ℚ)
    (h : limits.lookup p = some 0) :
    (mkCard limits p v).percent = none ∧
    (mkCard limits p v).direction = Direction.neutral ∧
    (mkCard limits p v).value = v := by
  simp [mkCard, h]

/-- Claim C6 witness: the theorem applied at a one-entry limit table
mapping O2 to 0 and predicted value 7. -/
theorem compare_zero_limit_witness :
    (mkCard [("O2", 0)] "O2" 7).percent = none ∧
    (mkCard [("O2", 0)] "O2" 7).direction = Direction.neutral ∧
    (mkCard [("O2", 0)] "O2" 7).value = 7 :=
  compare_zero_limit [("O2", 0)] "O2" 7 rfl

lemma exists_six_of_length_six {preds : List ℚ} (h : preds.length = 6) :
    ∃ a b c d e f : ℚ, preds = [a, b, c, d, e, f] := by
  rcases preds with _ | ⟨a, _ | ⟨b, _ | ⟨c, _ | ⟨d, _ | ⟨e, _ | ⟨f, _ | ⟨g, t⟩⟩⟩⟩⟩⟩⟩ <;>
    simp only [List.length_cons, List.length_nil] at h <;>
    first
      | exact ⟨_, _, _, _, _, _, rfl⟩
      | exact absurd h (by omega)

/-- Claim C7 counterexample: at the prediction row [1,2,3,4,5,6] the
long-format rows are not pollutant-major: row 1 is the Predicted row of
NO3, where pollutant-major order would put the second row of O2. -/
theorem chart_rows_not_pollutant_major :
    (chart_rows [1, 2, 3, 4, 5, 6]).map (fun r => (r.1, r.2.1)) ≠
      [("O2", "Predicted"), ("O2", "Safe Limit"),
       ("NO3", "Predicted"), ("NO3", "Safe Limit"),
       ("NO2", "Predicted"), ("NO2", "Safe Limit"),
       ("SO4", "Predicted"), ("SO4", "Safe Limit"),
       ("PO4", "Predicted"), ("PO4", "Safe Limit"),
       ("CL", "Predicted"), ("CL", "Safe Limit")] ∧
    (chart_rows [1, 2, 3, 4, 5, 6])[1]? = some ("NO3", "Predicted", 2) := by
  constructor
  · decide
  · decide

/-- Claim C7 (amended): for a 6-element prediction row the long-format
series has exactly 12 rows, one per pollutant and series type, but in
series-major order: the six Predicted rows in pollutant order followed by
the six Safe Limit rows in pollutant order (that is how melt stacks the
value columns). -/
theorem chart_rows_series_major (preds : List ℚ) (h : preds.length = 6) :
    chart_df preds = Except.ok (chart_rows preds) ∧
    (chart_rows preds).length = 12 ∧
    (chart_rows preds).map (fun r => (r.1, r.2.1)) =
      pollutants.map (fun p => (p, "Predicted")) ++
        pollutants.map (fun p => (p, "Safe Limit")) := by
  obtain ⟨a, b, c, d, e, f, rfl⟩ := exists_six_of_length_six h
  exact ⟨by simp [chart_df, pollutants], rfl, rfl⟩

/-- Claim C7 witness: the amended theorem applied at the prediction row
[1,2,3,4,5,6]. -/
theorem chart_rows_series_major_witness :
    chart_df [1, 2, 3, 4, 5, 6] = Except.ok (chart_rows [1, 2, 3, 4, 5, 6]) ∧
    (chart_rows [1, 2, 3, 4, 5, 6]).length = 12 ∧
    (chart_rows [1, 2, 3, 4, 5, 6]).map (fun r => (r.1, r.2.1)) =
      pollutants.map (fun p => (p, "Predicted")) ++
        pollutants.map (fun p => (p, "Safe Limit")) :=
  chart_rows_series_major [1, 2, 3, 4, 5, 6] rfl

/-- Claim C8: a bar of the built chart carries a printed numeric label
exactly when its value reaches the fixed threshold 10; below 10 no label
is printed. -/
theorem bar_label_iff (preds : List ℚ) (b : Bar)
    (hb : b ∈ render_bars (chart_rows preds)) :
    (b.label ≠ none ↔ (10 : ℚ) ≤ b.value) ∧
    (b.label = none ↔ b.value < 10) := by
  rcases List.mem_map.mp hb with ⟨r, hr, rfl⟩
  by_cases hv : (10 : ℚ) ≤ r.2.2
  · simp [label_threshold, ge_iff_le, hv, not_lt.mpr hv]
  · have hlt : r.2.2 < 10 := not_le.mp hv
    simp [label_threshold, ge_iff_le, hv, hlt]

/-- Claim C8 witness: the theorem applied to the Predicted bar of O2 with
value 40 in the chart of the row [40,0,0,0,0,0]. -/
theorem bar_label_iff_witness :
    ((Bar.mk "O2" "Predicted" 40 (some 40)).label ≠ none ↔
      (10 : ℚ) ≤ (Bar.mk "O2" "Predicted" 40 (some 40)).value) ∧
    ((Bar.mk "O2" "Predicted" 40 (some 40)).label = none ↔
      (Bar.mk "O2" "Predicted" 40 (some 40)).value < 10) :=
  bar_label_iff [40, 0, 0, 0, 0, 0] (Bar.mk "O2" "Predicted" 40 (some 40))
    (by decide)

lemma lookup_O2 : (safe_limits.lookup "O2").getD 0 = (5 : ℚ) := rfl

lemma lookup_NO3 : (safe_limits.lookup "NO3").getD 0 = (10 : ℚ) := rfl

lemma lookup_NO2 : (safe_limits.lookup "NO2").getD 0 = (0.1 : ℚ) := rfl

lemma lookup_SO4 : (safe_limits.lookup "SO4").getD 0 = (250 : ℚ) := rfl

lemma lookup_PO4 : (safe_limits.lookup "PO4").getD 0 = (0.1 : ℚ) := rfl

lemma lookup_CL : (safe_limits.lookup "CL").getD 0 = (250 : ℚ) := rfl

lemma mem_zip_fst_inj {α β : Type} {l : List α} {r : List β} (hnd : l.Nodup)
    {a : α} {b c : β} (h1 : (a, b) ∈ l.zip r) (h2 : (a, c) ∈ l.zip r) : b = c := by
  induction l generalizing r with
  | nil => simp at h1
  | cons x xs ih =>
    cases r with
    | nil => simp at h1
    | cons y ys =>
      rw [List.zip_cons_cons] at h1 h2
      rcases List.mem_cons.mp h1 with he1 | ht1
      · rcases List.mem_cons.mp h2 with he2 | ht2
        · injection he1 with hax hby
          injection he2 with hax2 hcy
          rw [hby, hcy]
        · injection he1 with hax hby
          subst hax
          exact absurd (List.of_mem_zip ht2).1 ((List.nodup_cons.mp hnd).1)
      · rcases List.mem_cons.mp h2 with he2 | ht2
        · injection he2 with hax hcy
          subst hax
          exact absurd (List.of_mem_zip ht1).1 ((List.nodup_cons.mp hnd).1)
        · exact ih (List.nodup_cons.mp hnd).2 ht1 ht2

lemma detect_mem_iff (preds : List ℚ) {p : String} {v : ℚ}
    (hpv : (p, v) ∈ pollutants.zip preds) :
    p ∈ detect_low_visibility preds ↔
      v < 10 ∧ (safe_limits.lookup p).getD 0 < 10 := by
  constructor
  · intro hmem
    rcases List.mem_map.mp hmem with ⟨⟨p1, v1⟩, hin, hfst⟩
    simp only at hfst
    subst hfst
    have hzip := (List.mem_filter.mp hin).1
    have hq := (List.mem_filter.mp hin).2
    have hnd : pollutants.Nodup := by decide
    have hv : v1 = v := mem_zip_fst_inj hnd hzip hpv
    subst hv
    simpa [label_threshold] using hq
  · intro hcond
    refine List.mem_map.mpr ⟨(p, v), List.mem_filter.mpr ⟨hpv, ?_⟩, rfl⟩
    simpa [label_threshold] using hcond

lemma bars_of_pollutant (preds : List ℚ) {p : String} {v : ℚ}
    (hpv : (p, v) ∈ pollutants.zip preds) {b : Bar}
    (hb : b ∈ render_bars (chart_rows preds)) (hbp : b.pollutant = p) :
    b = Bar.mk p "Predicted" v
        (if v ≥ label_threshold then some v else none) ∨
    b = Bar.mk p "Safe Limit" ((safe_limits.lookup p).getD 0)
        (if (safe_limits.lookup p).getD 0 ≥ label_threshold
          then some ((safe_limits.lookup p).getD 0) else none) := by
  rcases List.mem_map.mp hb with ⟨r, hr, rfl⟩
  rcases List.mem_append.mp hr with h1 | h2
  · rcases List.mem_map.mp h1 with ⟨⟨q, w⟩, hqw, rfl⟩
    left
    have hqp : q = p := hbp
    subst hqp
    have hnd : pollutants.Nodup := by decide
    have hw : w = v := mem_zip_fst_inj hnd hqw hpv
    subst hw
    rfl
  · rcases List.mem_map.mp h2 with ⟨q, hq, rfl⟩
    right
    have hqp : q = p := hbp
    subst hqp
    rfl

/-- Claim C9: a pollutant paired with a predicted value is flagged exactly
when both that value and its safe limit are below 10; the flagged list is a
sublist of the pollutant enumeration (order preserved); the disclaimer is
rendered exactly when the flagged list is non-empty and then lists exactly
the flagged pollutants; and on the row [4, 12, 0.15, 30, 0.05, 2] the
pollutant PO4 (predicted 0.05, limit 0.1) is flagged while NO3 (predicted
12, limit 10) is not. -/
theorem detect_low_visibility_spec (preds : List ℚ) :
    (∀ pv ∈ pollutants.zip preds,
      (pv.1 ∈ detect_low_visibility preds ↔
        pv.2 < 10 ∧ (safe_limits.lookup pv.1).getD 0 < 10)) ∧
    (detect_low_visibility preds).Sublist pollutants ∧
    (disclaimer preds = none ↔ detect_low_visibility preds = []) ∧
    (detect_low_visibility preds ≠ [] →
      disclaimer preds = some (detect_low_visibility preds)) ∧
    "PO4" ∈ detect_low_visibility [4, 12, 0.15, 30, 0.05, 2] ∧
    "NO3" ∉ detect_low_visibility [4, 12, 0.15, 30, 0.05, 2] := by
  refine ⟨?_, ?_, ?_, ?_, ?_, ?_⟩
  · rintro ⟨p, v⟩ hpv
    exact detect_mem_iff preds hpv
  · have h1 := List.filter_sublist (p := fun pv : String × ℚ =>
      decide (pv.2 < label_threshold ∧
        (safe_limits.lookup pv.1).getD 0 < label_threshold)) (pollutants.zip preds)
    have h2 := List.Sublist.map Prod.fst h1
    rw [map_fst_zip_eq_take] at h2
    exact h2.trans (List.take_sublist _ _)
  · by_cases hd : detect_low_visibility preds = [] <;> simp [disclaimer, hd]
  · intro hne
    simp [disclaimer, hne]
  · norm_num [detect_low_visibility, pollutants, label_threshold, List.filter_cons,
      lookup_O2, lookup_NO3, lookup_NO2, lookup_SO4, lookup_PO4, lookup_CL]
  · norm_num [detect_low_visibility, pollutants, label_threshold, List.filter_cons,
      lookup_O2, lookup_NO3, lookup_NO2, lookup_SO4, lookup_PO4, lookup_CL]
    decide

/-- Claim C9 witness: the theorem instantiated at the row
[4, 12, 0.15, 30, 0.05, 2], giving the two concrete flag facts. -/
theorem detect_low_visibility_spec_witness :
    "PO4" ∈ detect_low_visibility [4, 12, 0.15, 30, 0.05, 2] ∧
    "NO3" ∉ detect_low_visibility [4, 12, 0.15, 30, 0.05, 2] :=
  ⟨(detect_low_visibility_spec [4, 12, 0.15, 30, 0.05, 2]).2.2.2.2.1,
   (detect_low_visibility_spec [4, 12, 0.15, 30, 0.05, 2]).2.2.2.2.2⟩

/-- Claim C10: for a 6-element prediction row (the only case in which the
chart is built), a pollutant is flagged as low-visibility exactly when
neither of its two bars receives a printed label - the label rule and the
flag rule share the single threshold constant. -/
theorem low_visibility_iff_unlabeled (preds : List ℚ) (h : preds.length = 6)
    (p : String) (hp : p ∈ pollutants) :
    p ∈ detect_low_visibility preds ↔
      ∀ b ∈ render_bars (chart_rows preds), b.pollutant = p → b.label = none := by
  have hkeys : (pollutants.zip preds).map Prod.fst = pollutants := by
    rw [map_fst_zip_eq_take, h]
    decide
  have hx : p ∈ (pollutants.zip preds).map Prod.fst := by
    rw [hkeys]
    exact hp
  rcases List.mem_map.mp hx with ⟨⟨p0, v⟩, hzip, hfst⟩
  simp only at hfst
  subst hfst
  constructor
  · intro hmem b hb hbp
    have hc := (detect_mem_iff preds hzip).mp hmem
    rcases bars_of_pollutant preds hzip hb hbp with rfl | rfl
    · simp only [ge_iff_le, label_threshold]
      rw [if_neg (not_le.mpr hc.1)]
    · simp only [ge_iff_le, label_threshold]
      rw [if_neg (not_le.mpr hc.2)]
  · intro hall
    refine (detect_mem_iff preds hzip).mpr ⟨?_, ?_⟩
    · have hbmem : Bar.mk p0 "Predicted" v
          (if v ≥ label_threshold then some v else none) ∈
            render_bars (chart_rows preds) :=
        List.mem_map.mpr ⟨(p0, "Predicted", v),
          List.mem_append_left _ (List.mem_map.mpr ⟨(p0, v), hzip, rfl⟩), rfl⟩
      have hlab := hall _ hbmem rfl
      simp only [ge_iff_le, label_threshold] at hlab
      by_contra hge
      push_neg at hge
      rw [if_pos hge] at hlab
      exact Option.noConfusion hlab
    · have hp2 : p0 ∈ pollutants := (List.of_mem_zip hzip).1
      have hbmem : Bar.mk p0 "Safe Limit" ((safe_limits.lookup p0).getD 0)
          (if (safe_limits.lookup p0).getD 0 ≥ label_threshold
            then some ((safe_limits.lookup p0).getD 0) else none) ∈
            render_bars (chart_rows preds) :=
        List.mem_map.mpr ⟨(p0, "Safe Limit", (safe_limits.lookup p0).getD 0),
          List.mem_append_right _ (List.mem_map.mpr ⟨p0, hp2, rfl⟩), rfl⟩
      have hlab := hall _ hbmem rfl
      simp only [ge_iff_le, label_threshold] at hlab
      by_contra hge
      push_neg at hge
      rw [if_pos hge] at hlab
      exact Option.noConfusion hlab

/-- Claim C10 witness: the theorem applied at the row
[4, 12, 0.15, 30, 0.05, 2] and the pollutant PO4. -/
theorem low_visibility_iff_unlabeled_witness :
    "PO4" ∈ detect_low_visibility [4, 12, 0.15, 30, 0.05, 2] ↔
      ∀ b ∈ render_bars (chart_rows [4, 12, 0.15, 30, 0.05, 2]),
        b.pollutant = "PO4" → b.label = none :=
  low_visibility_iff_unlabeled [4, 12, 0.15, 30, 0.05, 2] rfl "PO4" (by decide)

end HydroSense
